import Mathlib

/-!
Shallow embedding of the five array generators of `src/array_pilot.py`
(`create_hexagonal_array`, `create_rectangular_array`, `create_sunflower_array`,
`create_circular_array`, `create_octagonal_array`) and proofs about them.

Conventions of the embedding:
* A numpy cell value is one of `1` (active), `0` (passive) and `np.nan` (empty);
  it is embedded as the three-valued type `Cell`.
* A numpy 2D array is embedded as a `Grid`: explicit dimensions plus a cell map.
* Python floats are embedded as exact rationals (`ℚ`); comparisons that the source
  makes against square roots are embedded by the equivalent squared comparisons in
  exact arithmetic, and the equivalence with the `Real.sqrt` forms is proved
  (`circle_cond_iff`, `oct_diamond_cond_iff`, `oct_square_cond_iff`).
* The process-wide numpy random source is embedded as explicit oracles:
  `sample n k` stands for the without-replacement draw
  `np.random.choice(n, k, replace=False)`, and `rand i j` (resp. `draws i`) for the
  `np.random.rand()` draw made at cell `(i, j)` (resp. at spiral point `i`).
* `np.random.choice` raises a `ValueError` on a negative request or on a request
  larger than the population; this is the only error the source can surface, and it
  is embedded through the `Except GenError` return type of the two generators that
  sample without replacement.
-/

namespace ArrayPilot

/-- State of one grid cell: `1` (Active), `0` (Passive) or `np.nan` (Empty) in the
source arrays. -/
inductive Cell where
  | Active : Cell
  | Passive : Cell
  | Empty : Cell
deriving DecidableEq

/-- A 2D grid of cell states with explicit dimensions, zero-based and row-major:
the embedding of the numpy arrays the generators return. Only the values
`cell i j` with `i < rows` and `j < cols` correspond to array entries. -/
@[ext]
structure Grid where
  rows : Nat
  cols : Nat
  cell : Nat → Nat → Cell

/-- Errors a generator call can surface. `valueError` embeds the `ValueError` that
`np.random.choice` raises on an invalid sample request — the only error the source
can produce. `invalidParameter` embeds the `InvalidParameter` category of the spec's
error taxonomy; the source never constructs it. -/
inductive GenError where
  | invalidParameter : GenError
  | valueError : GenError
deriving DecidableEq

/-- Python `int()` applied to a rational number: truncation toward zero. -/
def pytrunc (q : ℚ) : ℤ := if q < 0 then ⌈q⌉ else ⌊q⌋

/-- The value written into a removed cell: `0 if passive else np.nan`. -/
def demoteCell (passive : Bool) : Cell := if passive then Cell.Passive else Cell.Empty

/-- Assignment `g[i, j] = v` on a grid. -/
def Grid.set2 (g : Grid) (i j : Nat) (v : Cell) : Grid :=
  { g with cell := fun a b => if a = i ∧ b = j then v else g.cell a b }

/-- Number of grid entries that are not `Active`. -/
def Grid.countNonActive (g : Grid) : Nat :=
  ((Finset.range g.rows ×ˢ Finset.range g.cols).filter
    (fun p => g.cell p.1 p.2 ≠ Cell.Active)).card

/-- Number of grid entries that are not `Empty`. -/
def Grid.countNonEmpty (g : Grid) : Nat :=
  ((Finset.range g.rows ×ˢ Finset.range g.cols).filter
    (fun p => g.cell p.1 p.2 ≠ Cell.Empty)).card

/-- What a successful `np.random.choice(n, k, replace=False)` returns: `k` distinct
indices below `n`. -/
def IsSample (l : List Nat) (n k : Nat) : Prop :=
  l.length = k ∧ l.Nodup ∧ ∀ x ∈ l, x < n

/-- A sampling oracle standing for numpy's global random source: on any feasible
request (`k ≤ n`) it returns a valid without-replacement sample. -/
def ValidSampler (sample : Nat → Nat → List Nat) : Prop :=
  ∀ n k, k ≤ n → IsSample (sample n k) n k

/-- `create_rectangular_array` (src/array_pilot.py, lines 55–86): start from an
all-active `rows × columns` grid; if `randomize`, draw
`int(rows*columns*empty_fraction)` distinct flat positions and demote each, where a
flat position `pos` names cell `divmod(pos, columns)`. The sample request fails with
a `ValueError` when the requested count is negative or exceeds the population. -/
def create_rectangular_array (rows columns : Nat) (randomize : Bool)
    (empty_fraction : ℚ) (passive : Bool) (sample : Nat → Nat → List Nat) :
    Except GenError Grid :=
  let rect_array : Grid := ⟨rows, columns, fun _ _ => Cell.Active⟩
  if randomize = true then
    let num_cells := rows * columns
    let num_empty_cells := pytrunc ((num_cells : ℚ) * empty_fraction)
    if num_empty_cells < 0 ∨ (num_cells : ℤ) < num_empty_cells then
      Except.error GenError.valueError
    else
      Except.ok ((sample num_cells num_empty_cells.toNat).foldl
        (fun g pos => g.set2 (pos / columns) (pos % columns) (demoteCell passive))
        rect_array)
  else
    Except.ok rect_array

/-- Start of the occupied column range of row `i` of the hexagon:
`max(0, radius - i)` (truncated subtraction on `Nat` is exactly this `max`). -/
def hexStart (radius i : Nat) : Nat := radius - i

/-- End (exclusive) of the occupied column range of row `i` of the hexagon:
`size - max(0, i - radius)` with `size = 2*radius + 1`. -/
def hexEnd (radius i : Nat) : Nat := (2 * radius + 1) - (i - radius)

/-- The list `cell_positions` built by `create_hexagonal_array`: all `(i, j)` with
`i < size` and `j` in the occupied range `[hexStart, hexEnd)` of row `i`, in
row-major order. -/
def hexPositions (radius : Nat) : List (Nat × Nat) :=
  (List.range (2 * radius + 1)).flatMap fun i =>
    (List.range' (hexStart radius i) (hexEnd radius i - hexStart radius i)).map
      fun j => (i, j)

/-- `create_hexagonal_array` (src/array_pilot.py, lines 11–51): a
`(2*radius+1) × (2*radius+1)` grid whose row `i` is active on the column range
`[hexStart, hexEnd)` and empty outside; if `randomize`, draw
`int(len(cell_positions)*empty_fraction)` distinct indices into `cell_positions` and
demote the corresponding cells. -/
def create_hexagonal_array (radius : Nat) (randomize : Bool) (empty_fraction : ℚ)
    (passive : Bool) (sample : Nat → Nat → List Nat) : Except GenError Grid :=
  let size := 2 * radius + 1
  let hex_array : Grid :=
    ⟨size, size, fun i j =>
      if hexStart radius i ≤ j ∧ j < hexEnd radius i then Cell.Active else Cell.Empty⟩
  if randomize = true then
    let cell_positions := hexPositions radius
    let num_empty_cells := pytrunc ((cell_positions.length : ℚ) * empty_fraction)
    if num_empty_cells < 0 ∨ (cell_positions.length : ℤ) < num_empty_cells then
      Except.error GenError.valueError
    else
      Except.ok ((sample cell_positions.length num_empty_cells.toNat).foldl
        (fun g idx =>
          g.set2 (cell_positions.getD idx (0, 0)).1 (cell_positions.getD idx (0, 0)).2
            (demoteCell passive))
        hex_array)
  else
    Except.ok hex_array

/-- `create_circular_array` (src/array_pilot.py, lines 134–167). The source test
`np.sqrt((i-center)**2 + (j-center)**2) <= radius` is embedded in exact arithmetic
as `0 ≤ radius ∧ (i-center)² + (j-center)² ≤ radius²`, which is equivalent
(`circle_cond_iff`). Inside the circle, a per-cell draw `rand i j < empty_fraction`
(taken only when `randomize`) demotes the cell. -/
def create_circular_array (grid_size : Nat) (radius : ℚ) (randomize : Bool)
    (empty_fraction : ℚ) (passive : Bool) (rand : Nat → Nat → ℚ) : Grid :=
  let center : Nat := grid_size / 2
  ⟨grid_size, grid_size, fun i j =>
    if 0 ≤ radius ∧ ((i : ℚ) - center) ^ 2 + ((j : ℚ) - center) ^ 2 ≤ radius ^ 2 then
      if randomize = true ∧ rand i j < empty_fraction then demoteCell passive
      else Cell.Active
    else Cell.Empty⟩

/-- `create_octagonal_array` (src/array_pilot.py, lines 170–209). With
`x_dist = |i - center|` and `y_dist = |j - center|`, the source tests
`x_dist + y_dist <= side_length*(1 + √2/2)` and
`max(x_dist, y_dist) <= side_length*√2`; both are embedded in exact arithmetic
(`oct_diamond_cond_iff`, `oct_square_cond_iff`). Inside the octagon, a per-cell
draw `rand i j < empty_fraction` (taken only when `randomize`) demotes the cell. -/
def create_octagonal_array (grid_size : Nat) (side_length : ℚ) (randomize : Bool)
    (empty_fraction : ℚ) (passive : Bool) (rand : Nat → Nat → ℚ) : Grid :=
  let center : Nat := grid_size / 2
  ⟨grid_size, grid_size, fun i j =>
    let x_dist : Nat := ((i : ℤ) - center).natAbs
    let y_dist : Nat := ((j : ℤ) - center).natAbs
    if 0 ≤ side_length ∧
        (((x_dist + y_dist : Nat) : ℚ) ≤ side_length ∨
          2 * (((x_dist + y_dist : Nat) : ℚ) - side_length) ^ 2 ≤ side_length ^ 2) ∧
        ((max x_dist y_dist : Nat) : ℚ) ^ 2 ≤ 2 * side_length ^ 2 then
      if randomize = true ∧ rand i j < empty_fraction then demoteCell passive
      else Cell.Active
    else Cell.Empty⟩

/-- The golden angle `np.pi * (3 - np.sqrt(5))` used by the sunflower spiral. -/
noncomputable def goldenAngle : ℝ := Real.pi * (3 - Real.sqrt 5)

/-- Grid position `(row, col) = (round(center + y), round(center + x))` of spiral
point `i` of `create_sunflower_array`, where `r = radius*sqrt(i/n_points)`,
`theta = i*golden_angle`, `x = r*cos(theta)`, `y = r*sin(theta)`. (Mathlib's
`round` rounds half away from the floor while Python rounds half to even; the two
agree at the only point this function is evaluated at, `i = 0`, where the
coordinates are exact integers: see `sunflowerPoint_zero`.) -/
noncomputable def sunflowerPoint (n_points : Nat) (radius : ℚ) (grid_size : Nat)
    (i : Nat) : ℤ × ℤ :=
  let r : ℝ := (radius : ℝ) * Real.sqrt ((i : ℝ) / (n_points : ℝ))
  let theta : ℝ := (i : ℝ) * goldenAngle
  let x : ℝ := r * Real.cos theta
  let y : ℝ := r * Real.sin theta
  let center : Nat := grid_size / 2
  (round ((center : ℝ) + y), round ((center : ℝ) + x))

/-- The grid produced by the single executed iteration (`i = 0`) of the sunflower
loop: the first spiral point lands exactly on the center cell
(`sunflowerPoint_zero`), which is placed when within bounds (`center < grid_size`)
and holds `0 if randomize and np.random.rand() < empty_fraction and passive else 1`;
every other cell keeps its initial `np.nan`. -/
def sunflowerGrid (grid_size : Nat) (randomize : Bool) (empty_fraction : ℚ)
    (passive : Bool) (draws : Nat → ℚ) : Grid :=
  ⟨grid_size, grid_size, fun a b =>
    if a = grid_size / 2 ∧ b = grid_size / 2 ∧ grid_size / 2 < grid_size then
      if randomize = true ∧ draws 0 < empty_fraction ∧ passive = true then
        Cell.Passive
      else Cell.Active
    else Cell.Empty⟩

/-- `create_sunflower_array` (src/array_pilot.py, lines 88–131). The source's
`return grid` sits INSIDE the `for i in range(n_points)` loop, so only the
iteration `i = 0` ever executes before the function returns — its effect is
`sunflowerGrid`. When `n_points = 0` the loop body never runs, control falls off
the end of the function, and Python returns `None` — embedded as `none`. -/
def create_sunflower_array (n_points : Nat) (radius : ℚ) (grid_size : Nat)
    (randomize : Bool) (empty_fraction : ℚ) (passive : Bool) (draws : Nat → ℚ) :
    Option Grid :=
  if n_points = 0 then none
  else some (sunflowerGrid grid_size randomize empty_fraction passive draws)

/-! ### Basic facts about cells, grids and the sunflower point -/

theorem demoteCell_ne_active (passive : Bool) : demoteCell passive ≠ Cell.Active := by
  cases passive <;> simp [demoteCell]

theorem Grid.rows_set2 (g : Grid) (i j : Nat) (v : Cell) : (g.set2 i j v).rows = g.rows := rfl

theorem Grid.cols_set2 (g : Grid) (i j : Nat) (v : Cell) : (g.set2 i j v).cols = g.cols := rfl

theorem Grid.cell_set2 (g : Grid) (i j : Nat) (v : Cell) (a b : Nat) :
    (g.set2 i j v).cell a b = if a = i ∧ b = j then v else g.cell a b := rfl

/-- The only spiral point the source ever places is `i = 0`, and its grid position
is exactly the center: at `i = 0` we get `r = radius*√(0/n_points) = 0`,
`theta = 0`, hence `x = y = 0` and `(row, col) = (center, center)`. -/
theorem sunflowerPoint_zero (n_points : Nat) (radius : ℚ) (grid_size : Nat) :
    sunflowerPoint n_points radius grid_size 0 =
      (((grid_size / 2 : Nat) : ℤ), ((grid_size / 2 : Nat) : ℤ)) := by
  unfold sunflowerPoint
  simp [Real.sqrt_zero, Real.cos_zero, Real.sin_zero]

theorem create_sunflower_array_eq (n_points : Nat) (radius : ℚ) (grid_size : Nat)
    (randomize : Bool) (empty_fraction : ℚ) (passive : Bool) (draws : Nat → ℚ)
    (hn0 : n_points ≠ 0) :
    create_sunflower_array n_points radius grid_size randomize empty_fraction passive
        draws =
      some (sunflowerGrid grid_size randomize empty_fraction passive draws) := by
  simp [create_sunflower_array, hn0]

theorem sunflowerGrid_cell_center (grid_size : Nat) (randomize : Bool)
    (empty_fraction : ℚ) (passive : Bool) (draws : Nat → ℚ) (hg : 1 ≤ grid_size) :
    (sunflowerGrid grid_size randomize empty_fraction passive draws).cell
        (grid_size / 2) (grid_size / 2) =
      if randomize = true ∧ draws 0 < empty_fraction ∧ passive = true then
        Cell.Passive
      else Cell.Active := by
  have hcenter : grid_size / 2 < grid_size := Nat.div_lt_self (by omega) (by norm_num)
  simp [sunflowerGrid, hcenter]

theorem sunflowerGrid_cell_of_ne (grid_size : Nat) (randomize : Bool)
    (empty_fraction : ℚ) (passive : Bool) (draws : Nat → ℚ) (a b : Nat)
    (h : ¬(a = grid_size / 2 ∧ b = grid_size / 2)) :
    (sunflowerGrid grid_size randomize empty_fraction passive draws).cell a b =
      Cell.Empty := by
  simp only [sunflowerGrid]
  rw [if_neg (by tauto)]

theorem Grid.cell_mk (r c : Nat) (f : Nat → Nat → Cell) (i j : Nat) :
    (Grid.mk r c f).cell i j = f i j := rfl

theorem ite_active_empty_eq_active (c : Prop) [Decidable c] :
    ((if c then Cell.Active else Cell.Empty) = Cell.Active) ↔ c := by
  split <;> simp_all

theorem ite_active_empty_eq_empty (c : Prop) [Decidable c] :
    ((if c then Cell.Active else Cell.Empty) = Cell.Empty) ↔ ¬c := by
  split <;> simp_all

/-! ### The exact-arithmetic region tests agree with the source's `np.sqrt` tests -/

/-- The circular region test: `√(x² + y²) ≤ r` is exactly
`0 ≤ r ∧ x² + y² ≤ r²` in exact arithmetic. -/
theorem circle_cond_iff (x y r : ℚ) :
    (0 ≤ r ∧ x ^ 2 + y ^ 2 ≤ r ^ 2) ↔
      Real.sqrt ((x : ℝ) ^ 2 + (y : ℝ) ^ 2) ≤ (r : ℝ) := by
  rw [Real.sqrt_le_iff]
  constructor
  · rintro ⟨h1, h2⟩
    refine ⟨by exact_mod_cast h1, ?_⟩
    push_cast
    exact_mod_cast h2
  · rintro ⟨h1, h2⟩
    refine ⟨by exact_mod_cast h1, ?_⟩
    have h2' : (x : ℝ) ^ 2 + (y : ℝ) ^ 2 ≤ (r : ℝ) ^ 2 := by push_cast at h2 ⊢; exact h2
    exact_mod_cast h2'

/-- The octagon's square bound: `m ≤ s*√2` is exactly `0 ≤ s ∧ m² ≤ 2s²` in exact
arithmetic (for a natural number `m`). -/
theorem oct_square_cond_iff (s : ℚ) (m : Nat) :
    (0 ≤ s ∧ (m : ℚ) ^ 2 ≤ 2 * s ^ 2) ↔ (m : ℝ) ≤ (s : ℝ) * Real.sqrt 2 := by
  have h2 : Real.sqrt 2 ^ 2 = 2 := Real.sq_sqrt (by norm_num)
  have hpos : (0 : ℝ) < Real.sqrt 2 := Real.sqrt_pos.mpr (by norm_num)
  have hm : (0 : ℝ) ≤ (m : ℝ) := Nat.cast_nonneg m
  constructor
  · rintro ⟨hs, hle⟩
    have hs' : (0 : ℝ) ≤ (s : ℝ) := by exact_mod_cast hs
    have hle' : ((m : ℕ) : ℝ) ^ 2 ≤ 2 * (s : ℝ) ^ 2 := by exact_mod_cast hle
    have key : (m : ℝ) ≤ Real.sqrt (2 * (s : ℝ) ^ 2) :=
      (Real.le_sqrt hm (by positivity)).mpr hle'
    rwa [Real.sqrt_mul (by norm_num) _, Real.sqrt_sq hs', mul_comm] at key
  · intro h
    have hs' : (0 : ℝ) ≤ (s : ℝ) := by
      by_contra hneg
      push_neg at hneg
      nlinarith
    refine ⟨by exact_mod_cast hs', ?_⟩
    have h3 : ((m : ℕ) : ℝ) ^ 2 ≤ ((s : ℝ) * Real.sqrt 2) ^ 2 := pow_le_pow_left hm h 2
    have h4 : ((m : ℕ) : ℝ) ^ 2 ≤ 2 * (s : ℝ) ^ 2 := by nlinarith
    exact_mod_cast h4

/-- The octagon's diamond bound: `d ≤ s*(1 + √2/2)` is exactly
`0 ≤ s ∧ (d ≤ s ∨ 2*(d-s)² ≤ s²)` in exact arithmetic (for a natural number `d`). -/
theorem oct_diamond_cond_iff (s : ℚ) (d : Nat) :
    (0 ≤ s ∧ ((d : ℚ) ≤ s ∨ 2 * ((d : ℚ) - s) ^ 2 ≤ s ^ 2)) ↔
      (d : ℝ) ≤ (s : ℝ) * (1 + Real.sqrt 2 / 2) := by
  have h2 : Real.sqrt 2 ^ 2 = 2 := Real.sq_sqrt (by norm_num)
  have hpos : (0 : ℝ) < Real.sqrt 2 := Real.sqrt_pos.mpr (by norm_num)
  have hd : (0 : ℝ) ≤ (d : ℝ) := Nat.cast_nonneg d
  constructor
  · rintro ⟨hs, hcase⟩
    have hs' : (0 : ℝ) ≤ (s : ℝ) := by exact_mod_cast hs
    rcases hcase with h | h
    · have h' : ((d : ℕ) : ℝ) ≤ (s : ℝ) := by exact_mod_cast h
      nlinarith [mul_nonneg hs' hpos.le]
    · have h' : 2 * (((d : ℕ) : ℝ) - (s : ℝ)) ^ 2 ≤ (s : ℝ) ^ 2 := by exact_mod_cast h
      by_cases hds : ((d : ℕ) : ℝ) ≤ (s : ℝ)
      · nlinarith [mul_nonneg hs' hpos.le]
      · push_neg at hds
        have hsq : ((d : ℕ) : ℝ) - (s : ℝ) ≤ Real.sqrt ((s : ℝ) ^ 2 / 2) :=
          (Real.le_sqrt (by linarith) (by positivity)).mpr (by linarith)
        have hval : Real.sqrt ((s : ℝ) ^ 2 / 2) = (s : ℝ) * Real.sqrt 2 / 2 := by
          rw [show (s : ℝ) ^ 2 / 2 = ((s : ℝ) * Real.sqrt 2 / 2) ^ 2 by
            field_simp
            nlinarith]
          exact Real.sqrt_sq (by positivity)
        rw [hval] at hsq
        nlinarith
  · intro h
    have hs' : (0 : ℝ) ≤ (s : ℝ) := by
      by_contra hneg
      push_neg at hneg
      nlinarith
    refine ⟨by exact_mod_cast hs', ?_⟩
    by_cases hds : ((d : ℕ) : ℝ) ≤ (s : ℝ)
    · left
      exact_mod_cast hds
    · right
      push_neg at hds
      have h1 : ((d : ℕ) : ℝ) - (s : ℝ) ≤ (s : ℝ) * Real.sqrt 2 / 2 := by nlinarith
      have h3 : (((d : ℕ) : ℝ) - (s : ℝ)) ^ 2 ≤ ((s : ℝ) * Real.sqrt 2 / 2) ^ 2 :=
        pow_le_pow_left (by linarith) h1 2
      have h4 : 2 * (((d : ℕ) : ℝ) - (s : ℝ)) ^ 2 ≤ (s : ℝ) ^ 2 := by nlinarith
      exact_mod_cast h4

/-! ### C1 -/

/-- C1: the claim says invalid parameters (rows=0, empty_fraction outside [0,1],
n_points=0) fail with an `InvalidParameter` error. The code performs no parameter
validation at all: `create_rectangular_array(rows=0, columns=5, randomize=False,
empty_fraction=-0.1)` silently returns a 0×5 grid, `create_sunflower_array` with
`n_points=0` returns `None` (no grid, no error), and no call of
`create_rectangular_array` can ever surface an `InvalidParameter` error. -/
theorem c1_no_parameter_validation :
    create_rectangular_array 0 5 false (-(1 / 10)) false (fun _ _ => []) =
        Except.ok ⟨0, 5, fun _ _ => Cell.Active⟩ ∧
      create_sunflower_array 0 1 5 false (1 / 10) false (fun _ => 0) = none ∧
      ∀ rows cols rz f p s,
        create_rectangular_array rows cols rz f p s ≠
          Except.error GenError.invalidParameter := by
  refine ⟨rfl, rfl, ?_⟩
  intro rows cols rz f p s h
  revert h
  unfold create_rectangular_array
  cases rz with
  | false => simp
  | true =>
    simp only [if_true]
    split <;> simp

/-! ### C2, C7, C10: the sunflower generator -/

/-- C2: the sunflower generator returns after placing only the first point of the
spiral: for every `n_points ≥ 1`, `radius ≥ 0` and `grid_size ≥ 1`, the returned
`grid_size × grid_size` grid contains at most one non-Empty cell, regardless of
`n_points`. -/
theorem c2_sunflower_early_return (n_points : Nat) (radius : ℚ) (grid_size : Nat)
    (randomize : Bool) (empty_fraction : ℚ) (passive : Bool) (draws : Nat → ℚ)
    (hn : 1 ≤ n_points) (hr : 0 ≤ radius) (hg : 1 ≤ grid_size) :
    ∃ g, create_sunflower_array n_points radius grid_size randomize empty_fraction
          passive draws = some g ∧
      g.rows = grid_size ∧ g.cols = grid_size ∧ g.countNonEmpty ≤ 1 := by
  have hn0 : n_points ≠ 0 := by omega
  refine ⟨_, create_sunflower_array_eq _ _ _ _ _ _ _ hn0, rfl, rfl, ?_⟩
  rw [Grid.countNonEmpty]
  refine le_trans (Finset.card_le_card ?_)
    (le_of_eq (Finset.card_singleton ((grid_size / 2 : Nat), (grid_size / 2 : Nat))))
  intro p hp
  simp only [Finset.mem_filter, ne_eq] at hp
  rcases hp with ⟨-, hp⟩
  by_cases h : p.1 = grid_size / 2 ∧ p.2 = grid_size / 2
  · simp only [Finset.mem_singleton]
    exact Prod.ext h.1 h.2
  · exact absurd (sunflowerGrid_cell_of_ne _ _ _ _ _ _ _ h) hp

/-- C2 witness: the hypotheses of `c2_sunflower_early_return` hold at
`n_points = 3`, `radius = 1`, `grid_size = 5`. -/
theorem c2_sunflower_early_return_witness :
    (1 ≤ 3 ∧ (0 : ℚ) ≤ 1 ∧ 1 ≤ 5) ∧
      ∃ g, create_sunflower_array 3 1 5 false (1 / 10) false (fun _ => 0) = some g ∧
        g.rows = 5 ∧ g.cols = 5 ∧ g.countNonEmpty ≤ 1 :=
  ⟨⟨by norm_num, by norm_num, by norm_num⟩,
    c2_sunflower_early_return 3 1 5 false (1 / 10) false (fun _ => 0)
      (by norm_num) (by norm_num) (by norm_num)⟩

/-- C7: a sunflower point is marked Passive exactly when `randomize` is set AND the
per-point draw is `< empty_fraction` AND `passive` is true; with `passive = false`
the placed cell stays Active even when the draw fires, so with `randomize = true`
and `passive = false` no sunflower cell is ever demoted. -/
theorem c7_sunflower_passive_condition (n_points : Nat) (radius : ℚ)
    (grid_size : Nat) (randomize : Bool) (empty_fraction : ℚ) (passive : Bool)
    (draws : Nat → ℚ) (hn : 1 ≤ n_points) (hg : 1 ≤ grid_size) :
    ∃ g, create_sunflower_array n_points radius grid_size randomize empty_fraction
          passive draws = some g ∧
      (g.cell (grid_size / 2) (grid_size / 2) = Cell.Passive ↔
        randomize = true ∧ draws 0 < empty_fraction ∧ passive = true) ∧
      (passive = false → g.cell (grid_size / 2) (grid_size / 2) = Cell.Active) ∧
      (randomize = true → passive = false →
        ∀ i j, i < grid_size → j < grid_size → g.cell i j ≠ Cell.Passive) := by
  have hn0 : n_points ≠ 0 := by omega
  refine ⟨_, create_sunflower_array_eq _ _ _ _ _ _ _ hn0, ?_, ?_, ?_⟩
  · rw [sunflowerGrid_cell_center _ _ _ _ _ hg]
    constructor
    · intro h
      by_contra hcond
      rw [if_neg hcond] at h
      exact Cell.noConfusion h
    · intro hcond
      rw [if_pos hcond]
  · intro hpassive
    rw [sunflowerGrid_cell_center _ _ _ _ _ hg, if_neg (by simp [hpassive])]
  · intro hrand hpassive i j hi hj
    by_cases h : i = grid_size / 2 ∧ j = grid_size / 2
    · rcases h with ⟨h1, h2⟩
      subst h1; subst h2
      rw [sunflowerGrid_cell_center _ _ _ _ _ hg, if_neg (by simp [hpassive])]
      exact Cell.noConfusion
    · rw [sunflowerGrid_cell_of_ne _ _ _ _ _ _ _ h]
      exact Cell.noConfusion

/-- C7 witness: the hypotheses of `c7_sunflower_passive_condition` hold at
`n_points = 2`, `grid_size = 3`. -/
theorem c7_sunflower_passive_condition_witness :
    (1 ≤ 2 ∧ 1 ≤ 3) ∧
      ∃ g, create_sunflower_array 2 1 3 true (1 / 2) false (fun _ => 0) = some g ∧
        (g.cell (3 / 2) (3 / 2) = Cell.Passive ↔
          true = true ∧ (fun _ : Nat => (0 : ℚ)) 0 < 1 / 2 ∧ false = true) ∧
        (false = false → g.cell (3 / 2) (3 / 2) = Cell.Active) ∧
        (true = true → false = false →
          ∀ i j, i < 3 → j < 3 → g.cell i j ≠ Cell.Passive) :=
  ⟨⟨by norm_num, by norm_num⟩,
    c7_sunflower_passive_condition 2 1 3 true (1 / 2) false (fun _ => 0)
      (by norm_num) (by norm_num)⟩

/-- C10: for every `n_points ≥ 1`, `radius ≥ 0` and `grid_size ≥ 1`, the single
non-Empty cell of the sunflower grid is exactly the center
`(grid_size / 2, grid_size / 2)`: the first spiral point rounds to the center,
which always lies within bounds, so the grid has exactly one non-Empty cell and it
is at the center. -/
theorem c10_sunflower_center_cell (n_points : Nat) (radius : ℚ) (grid_size : Nat)
    (randomize : Bool) (empty_fraction : ℚ) (passive : Bool) (draws : Nat → ℚ)
    (hn : 1 ≤ n_points) (hr : 0 ≤ radius) (hg : 1 ≤ grid_size) :
    ∃ g, create_sunflower_array n_points radius grid_size randomize empty_fraction
          passive draws = some g ∧
      g.cell (grid_size / 2) (grid_size / 2) ≠ Cell.Empty ∧
      ∀ i j, i < grid_size → j < grid_size →
        ¬(i = grid_size / 2 ∧ j = grid_size / 2) → g.cell i j = Cell.Empty := by
  have hn0 : n_points ≠ 0 := by omega
  refine ⟨_, create_sunflower_array_eq _ _ _ _ _ _ _ hn0, ?_, ?_⟩
  · rw [sunflowerGrid_cell_center _ _ _ _ _ hg]
    split <;> exact Cell.noConfusion
  · intro i j hi hj hij
    exact sunflowerGrid_cell_of_ne _ _ _ _ _ _ _ hij

/-- C10 witness: the hypotheses of `c10_sunflower_center_cell` hold at
`n_points = 4`, `radius = 2`, `grid_size = 4`. -/
theorem c10_sunflower_center_cell_witness :
    (1 ≤ 4 ∧ (0 : ℚ) ≤ 2 ∧ 1 ≤ 4) ∧
      ∃ g, create_sunflower_array 4 2 4 false (1 / 10) true (fun _ => 0) = some g ∧
        g.cell (4 / 2) (4 / 2) ≠ Cell.Empty ∧
        ∀ i j, i < 4 → j < 4 → ¬(i = 4 / 2 ∧ j = 4 / 2) → g.cell i j = Cell.Empty :=
  ⟨⟨by norm_num, by norm_num, by norm_num⟩,
    c10_sunflower_center_cell 4 2 4 false (1 / 10) true (fun _ => 0)
      (by norm_num) (by norm_num) (by norm_num)⟩

/-! ### The demotion loops of the two fixed-count-sampling generators -/

theorem rect_foldl_cell (columns : Nat) (passive : Bool) (l : List Nat) (g₀ : Grid)
    (a b : Nat) :
    (l.foldl
        (fun g pos => g.set2 (pos / columns) (pos % columns) (demoteCell passive))
        g₀).cell a b =
      if ∃ pos ∈ l, pos / columns = a ∧ pos % columns = b then demoteCell passive
      else g₀.cell a b := by
  induction l generalizing g₀ with
  | nil => simp
  | cons x xs ih =>
    rw [List.foldl_cons, ih]
    simp only [List.mem_cons, exists_eq_or_imp]
    by_cases hxs : ∃ pos ∈ xs, pos / columns = a ∧ pos % columns = b
    · simp [hxs]
    · simp only [hxs, or_false, if_false]
      rw [Grid.cell_set2]
      by_cases hx : x / columns = a ∧ x % columns = b
      · rw [if_pos ⟨hx.1.symm, hx.2.symm⟩, if_pos hx]
      · rw [if_neg (fun h => hx ⟨h.1.symm, h.2.symm⟩), if_neg hx]

theorem rect_foldl_rows (columns : Nat) (passive : Bool) (l : List Nat) (g₀ : Grid) :
    (l.foldl
        (fun g pos => g.set2 (pos / columns) (pos % columns) (demoteCell passive))
        g₀).rows = g₀.rows := by
  induction l generalizing g₀ with
  | nil => rfl
  | cons x xs ih => rw [List.foldl_cons, ih]; rfl

theorem rect_foldl_cols (columns : Nat) (passive : Bool) (l : List Nat) (g₀ : Grid) :
    (l.foldl
        (fun g pos => g.set2 (pos / columns) (pos % columns) (demoteCell passive))
        g₀).cols = g₀.cols := by
  induction l generalizing g₀ with
  | nil => rfl
  | cons x xs ih => rw [List.foldl_cons, ih]; rfl

theorem hex_foldl_cell (ps : List (Nat × Nat)) (passive : Bool) (l : List Nat)
    (g₀ : Grid) (a b : Nat) :
    (l.foldl
        (fun g idx =>
          g.set2 (ps.getD idx (0, 0)).1 (ps.getD idx (0, 0)).2 (demoteCell passive))
        g₀).cell a b =
      if ∃ idx ∈ l, ps.getD idx (0, 0) = (a, b) then demoteCell passive
      else g₀.cell a b := by
  induction l generalizing g₀ with
  | nil => simp
  | cons x xs ih =>
    rw [List.foldl_cons, ih]
    simp only [List.mem_cons, exists_eq_or_imp]
    by_cases hxs : ∃ idx ∈ xs, ps.getD idx (0, 0) = (a, b)
    · rw [if_pos hxs, if_pos (Or.inr hxs)]
    · simp only [hxs, or_false, if_false]
      rw [Grid.cell_set2]
      by_cases hx : ps.getD x (0, 0) = (a, b)
      · rw [if_pos ⟨(congrArg Prod.fst hx).symm, (congrArg Prod.snd hx).symm⟩,
          if_pos hx]
      · rw [if_neg, if_neg hx]
        intro h
        exact hx (Prod.ext h.1.symm h.2.symm)

theorem hex_foldl_rows (ps : List (Nat × Nat)) (passive : Bool) (l : List Nat)
    (g₀ : Grid) :
    (l.foldl
        (fun g idx =>
          g.set2 (ps.getD idx (0, 0)).1 (ps.getD idx (0, 0)).2 (demoteCell passive))
        g₀).rows = g₀.rows := by
  induction l generalizing g₀ with
  | nil => rfl
  | cons x xs ih => rw [List.foldl_cons, ih]; rfl

theorem hex_foldl_cols (ps : List (Nat × Nat)) (passive : Bool) (l : List Nat)
    (g₀ : Grid) :
    (l.foldl
        (fun g idx =>
          g.set2 (ps.getD idx (0, 0)).1 (ps.getD idx (0, 0)).2 (demoteCell passive))
        g₀).cols = g₀.cols := by
  induction l generalizing g₀ with
  | nil => rfl
  | cons x xs ih => rw [List.foldl_cons, ih]; rfl

/-! ### Arithmetic of the sample-size computation and flat-index decoding -/

theorem pytrunc_of_nonneg (q : ℚ) (h : 0 ≤ q) : pytrunc q = ⌊q⌋ := by
  unfold pytrunc
  rw [if_neg (not_lt.mpr h)]

theorem floor_mul_nonneg (N : Nat) (f : ℚ) (hf0 : 0 ≤ f) : 0 ≤ ⌊(N : ℚ) * f⌋ :=
  Int.floor_nonneg.mpr (mul_nonneg (Nat.cast_nonneg _) hf0)

theorem floor_mul_le (N : Nat) (f : ℚ) (hf1 : f ≤ 1) : ⌊(N : ℚ) * f⌋ ≤ (N : ℤ) := by
  calc ⌊(N : ℚ) * f⌋ ≤ ⌊(N : ℚ)⌋ :=
        Int.floor_le_floor (by nlinarith [Nat.cast_nonneg (α := ℚ) N])
    _ = (N : ℤ) := Int.floor_natCast _

theorem floor_mul_toNat_le (N : Nat) (f : ℚ) (hf1 : f ≤ 1) :
    (⌊(N : ℚ) * f⌋).toNat ≤ N :=
  Int.toNat_le.mpr (floor_mul_le N f hf1)

theorem floor_mul_one_toNat (N : Nat) : (⌊(N : ℚ) * 1⌋).toNat = N := by
  rw [mul_one, Int.floor_natCast, Int.toNat_natCast]

theorem divmod_encode (i j columns : Nat) (hj : j < columns) :
    (i * columns + j) / columns = i ∧ (i * columns + j) % columns = j := by
  constructor
  · rw [add_comm, Nat.add_mul_div_right _ _ (by omega), Nat.div_eq_of_lt hj, zero_add]
  · rw [add_comm, Nat.add_mul_mod_self_right, Nat.mod_eq_of_lt hj]

theorem decode_lt (pos rows columns : Nat) (h : pos < rows * columns) :
    pos / columns < rows ∧ pos % columns < columns := by
  have hc : 0 < columns := by
    rcases Nat.eq_zero_or_pos columns with h0 | h0
    · subst h0; simp at h
    · exact h0
  exact ⟨(Nat.div_lt_iff_lt_mul hc).mpr (by omega), Nat.mod_lt _ hc⟩

theorem decode_inj (p q columns : Nat) (h1 : p / columns = q / columns)
    (h2 : p % columns = q % columns) : p = q := by
  calc p = columns * (p / columns) + p % columns := (Nat.div_add_mod p columns).symm
    _ = columns * (q / columns) + q % columns := by rw [h1, h2]
    _ = q := Nat.div_add_mod q columns

/-- A without-replacement sample of the full population contains every index
(pigeonhole). -/
theorem isSample_full (l : List Nat) (n : Nat) (h : IsSample l n n) :
    ∀ x, x < n → x ∈ l := by
  obtain ⟨hlen, hnd, hbound⟩ := h
  have hsub : l.toFinset ⊆ Finset.range n := fun x hx =>
    Finset.mem_range.mpr (hbound x (List.mem_toFinset.mp hx))
  have hcard : (Finset.range n).card ≤ l.toFinset.card := by
    rw [List.toFinset_card_of_nodup hnd, hlen, Finset.card_range]
  have heq := Finset.eq_of_subset_of_card_le hsub hcard
  intro x hx
  exact List.mem_toFinset.mp (heq ▸ Finset.mem_range.mpr hx)

theorem validSampler_range : ValidSampler fun _ k => List.range k := by
  intro n k hk
  exact ⟨List.length_range k, List.nodup_range k,
    fun x hx => lt_of_lt_of_le (List.mem_range.mp hx) hk⟩

theorem getD_of_lt (l : List (Nat × Nat)) (n : Nat) (h : n < l.length) :
    l.getD n (0, 0) = l[n] := by
  simp [List.getD_eq_getElem?_getD, List.getElem?_eq_getElem h]

/-! ### The hexagon's cell-position list -/

theorem hexStart_le_hexEnd (radius i : Nat) (h : i < 2 * radius + 1) :
    hexStart radius i ≤ hexEnd radius i := by
  unfold hexStart hexEnd
  omega

theorem mem_hexPositions (radius : Nat) (p : Nat × Nat) :
    p ∈ hexPositions radius ↔
      p.1 < 2 * radius + 1 ∧ hexStart radius p.1 ≤ p.2 ∧ p.2 < hexEnd radius p.1 := by
  obtain ⟨i, j⟩ := p
  simp only [hexPositions, List.mem_flatMap, List.mem_map, List.mem_range,
    List.mem_range'_1, Prod.mk.injEq]
  constructor
  · rintro ⟨i', hi', j', ⟨h1, h2⟩, rfl, rfl⟩
    have := hexStart_le_hexEnd radius i' hi'
    exact ⟨hi', h1, by omega⟩
  · rintro ⟨h1, h2, h3⟩
    exact ⟨i, h1, j, ⟨h2, by omega⟩, rfl, rfl⟩

theorem hexPositions_nodup (radius : Nat) : (hexPositions radius).Nodup := by
  unfold hexPositions
  rw [List.nodup_flatMap]
  constructor
  · intro i hi
    exact (List.nodup_range' _ _).map fun a b h => by simpa using h
  · refine (List.pairwise_lt_range _).imp ?_
    intro a b hab x hxa hxb
    simp only [List.mem_map] at hxa hxb
    obtain ⟨j1, -, rfl⟩ := hxa
    obtain ⟨j2, -, h⟩ := hxb
    have : b = a := congrArg Prod.fst h
    omega

/-! ### C4, C5, C6: the non-randomized region shapes -/

theorem create_hexagonal_array_false_eq (radius : Nat) (f : ℚ) (p : Bool)
    (smp : Nat → Nat → List Nat) :
    create_hexagonal_array radius false f p smp =
      Except.ok ⟨2 * radius + 1, 2 * radius + 1, fun i j =>
        if hexStart radius i ≤ j ∧ j < hexEnd radius i then Cell.Active
        else Cell.Empty⟩ := rfl

/-- C4: for every radius ≥ 1, the hexagonal generator returns a grid of side
`2*radius+1` in which row `i` has Active cells exactly in columns
`[max(0, radius-i), size - max(0, i-radius))` when not randomized, all cells
outside that range are Empty, and the apex cell `(radius, radius)` is Active. -/
theorem c4_hexagonal_region (radius : Nat) (f : ℚ) (p : Bool)
    (smp : Nat → Nat → List Nat) (hr : 1 ≤ radius) :
    ∃ g, create_hexagonal_array radius false f p smp = Except.ok g ∧
      g.rows = 2 * radius + 1 ∧ g.cols = 2 * radius + 1 ∧
      (∀ i j, i < 2 * radius + 1 → j < 2 * radius + 1 →
        (g.cell i j = Cell.Active ↔
          max 0 ((radius : ℤ) - i) ≤ (j : ℤ) ∧
            (j : ℤ) < (2 * radius + 1 : ℤ) - max 0 ((i : ℤ) - radius)) ∧
        (¬(max 0 ((radius : ℤ) - i) ≤ (j : ℤ) ∧
            (j : ℤ) < (2 * radius + 1 : ℤ) - max 0 ((i : ℤ) - radius)) →
          g.cell i j = Cell.Empty)) ∧
      g.cell radius radius = Cell.Active := by
  refine ⟨_, create_hexagonal_array_false_eq radius f p smp, rfl, rfl, ?_, ?_⟩
  · intro i j hi hj
    have hiff : (hexStart radius i ≤ j ∧ j < hexEnd radius i) ↔
        (max 0 ((radius : ℤ) - i) ≤ (j : ℤ) ∧
          (j : ℤ) < (2 * radius + 1 : ℤ) - max 0 ((i : ℤ) - radius)) := by
      unfold hexStart hexEnd
      omega
    constructor
    · rw [Grid.cell_mk, ite_active_empty_eq_active]
      exact hiff
    · intro h
      rw [Grid.cell_mk, ite_active_empty_eq_empty]
      exact (not_congr hiff).mpr h
  · rw [Grid.cell_mk, ite_active_empty_eq_active]
    unfold hexStart hexEnd
    omega

/-- C4 witness: the hypothesis of `c4_hexagonal_region` holds at `radius = 1`. -/
theorem c4_hexagonal_region_witness :
    1 ≤ 1 ∧
      ∃ g, create_hexagonal_array 1 false (1 / 10) false (fun _ _ => []) =
          Except.ok g ∧
        g.rows = 2 * 1 + 1 ∧ g.cols = 2 * 1 + 1 ∧
        (∀ i j, i < 2 * 1 + 1 → j < 2 * 1 + 1 →
          (g.cell i j = Cell.Active ↔
            max 0 ((1 : ℤ) - i) ≤ (j : ℤ) ∧
              (j : ℤ) < (2 * 1 + 1 : ℤ) - max 0 ((i : ℤ) - 1)) ∧
          (¬(max 0 ((1 : ℤ) - i) ≤ (j : ℤ) ∧
              (j : ℤ) < (2 * 1 + 1 : ℤ) - max 0 ((i : ℤ) - 1)) →
            g.cell i j = Cell.Empty)) ∧
        g.cell 1 1 = Cell.Active :=
  ⟨by norm_num, c4_hexagonal_region 1 (1 / 10) false (fun _ _ => []) (by norm_num)⟩

theorem circular_cell_nonrandom (grid_size : Nat) (radius empty_fraction : ℚ)
    (passive : Bool) (rand : Nat → Nat → ℚ) (i j : Nat) :
    (create_circular_array grid_size radius false empty_fraction passive rand).cell
        i j =
      if 0 ≤ radius ∧ ((i : ℚ) - ((grid_size / 2 : Nat) : ℚ)) ^ 2 +
          ((j : ℚ) - ((grid_size / 2 : Nat) : ℚ)) ^ 2 ≤ radius ^ 2 then Cell.Active
      else Cell.Empty := by
  simp [create_circular_array]

/-- C5: for every grid_size ≥ 1 and radius ≥ 0, the circular generator with
randomize=False marks a cell `(i,j)` Active iff its Euclidean distance to the
center `(grid_size // 2, grid_size // 2)` is ≤ radius, and Empty otherwise; in
particular with radius=0 and grid_size=5, only cell `(2,2)` is Active. -/
theorem c5_circular_region (grid_size : Nat) (radius : ℚ) (empty_fraction : ℚ)
    (passive : Bool) (rand : Nat → Nat → ℚ) (hg : 1 ≤ grid_size) (hr : 0 ≤ radius) :
    (create_circular_array grid_size radius false empty_fraction passive rand).rows
        = grid_size ∧
      (create_circular_array grid_size radius false empty_fraction passive
          rand).cols = grid_size ∧
      (∀ i j, i < grid_size → j < grid_size →
        ((create_circular_array grid_size radius false empty_fraction passive
              rand).cell i j = Cell.Active ↔
          Real.sqrt (((i : ℝ) - ((grid_size / 2 : Nat) : ℝ)) ^ 2 +
              ((j : ℝ) - ((grid_size / 2 : Nat) : ℝ)) ^ 2) ≤ (radius : ℝ)) ∧
        ((create_circular_array grid_size radius false empty_fraction passive
              rand).cell i j = Cell.Empty ↔
          ¬Real.sqrt (((i : ℝ) - ((grid_size / 2 : Nat) : ℝ)) ^ 2 +
              ((j : ℝ) - ((grid_size / 2 : Nat) : ℝ)) ^ 2) ≤ (radius : ℝ))) ∧
      (∀ i j, i < 5 → j < 5 →
        ((create_circular_array 5 0 false empty_fraction passive rand).cell i j =
            Cell.Active ↔ (i = 2 ∧ j = 2))) := by
  refine ⟨rfl, rfl, ?_, ?_⟩
  · intro i j hi hj
    have hcast : ∀ k : Nat,
        ((((k : ℚ) - ((grid_size / 2 : Nat) : ℚ)) : ℚ) : ℝ) =
          (k : ℝ) - ((grid_size / 2 : Nat) : ℝ) := by
      intro k
      push_cast
      ring
    have key := circle_cond_iff ((i : ℚ) - ((grid_size / 2 : Nat) : ℚ))
      ((j : ℚ) - ((grid_size / 2 : Nat) : ℚ)) radius
    rw [hcast i, hcast j] at key
    constructor
    · rw [circular_cell_nonrandom, ite_active_empty_eq_active]
      exact key
    · rw [circular_cell_nonrandom, ite_active_empty_eq_empty]
      exact not_congr key
  · intro i j hi hj
    rw [circular_cell_nonrandom, ite_active_empty_eq_active]
    have h52 : ((5 / 2 : Nat) : ℚ) = 2 := by norm_num
    rw [h52]
    constructor
    · rintro ⟨-, h⟩
      have hA : ((i : ℚ) - 2) ^ 2 = 0 :=
        le_antisymm (by nlinarith [sq_nonneg ((j : ℚ) - 2)]) (sq_nonneg _)
      have hB : ((j : ℚ) - 2) ^ 2 = 0 :=
        le_antisymm (by nlinarith [sq_nonneg ((i : ℚ) - 2)]) (sq_nonneg _)
      constructor
      · exact_mod_cast sub_eq_zero.mp (sq_eq_zero_iff.mp hA)
      · exact_mod_cast sub_eq_zero.mp (sq_eq_zero_iff.mp hB)
    · rintro ⟨rfl, rfl⟩
      norm_num

/-- C5 witness: the hypotheses of `c5_circular_region` hold at `grid_size = 5`,
`radius = 0`. -/
theorem c5_circular_region_witness :
    (1 ≤ 5 ∧ (0 : ℚ) ≤ 0) ∧
      ((create_circular_array 5 0 false (1 / 10) false (fun _ _ => 0)).rows = 5 ∧
        (create_circular_array 5 0 false (1 / 10) false (fun _ _ => 0)).cols = 5 ∧
        (∀ i j, i < 5 → j < 5 →
          ((create_circular_array 5 0 false (1 / 10) false (fun _ _ => 0)).cell i j
              = Cell.Active ↔
            Real.sqrt (((i : ℝ) - ((5 / 2 : Nat) : ℝ)) ^ 2 +
                ((j : ℝ) - ((5 / 2 : Nat) : ℝ)) ^ 2) ≤ ((0 : ℚ) : ℝ)) ∧
          ((create_circular_array 5 0 false (1 / 10) false (fun _ _ => 0)).cell i j
              = Cell.Empty ↔
            ¬Real.sqrt (((i : ℝ) - ((5 / 2 : Nat) : ℝ)) ^ 2 +
                ((j : ℝ) - ((5 / 2 : Nat) : ℝ)) ^ 2) ≤ ((0 : ℚ) : ℝ))) ∧
        (∀ i j, i < 5 → j < 5 →
          ((create_circular_array 5 0 false (1 / 10) false (fun _ _ => 0)).cell i j
              = Cell.Active ↔ (i = 2 ∧ j = 2)))) :=
  ⟨⟨by norm_num, by norm_num⟩,
    c5_circular_region 5 0 (1 / 10) false (fun _ _ => 0) (by norm_num) (by norm_num)⟩

theorem octagonal_cell_nonrandom (grid_size : Nat) (side_length empty_fraction : ℚ)
    (passive : Bool) (rand : Nat → Nat → ℚ) (i j : Nat) :
    (create_octagonal_array grid_size side_length false empty_fraction passive
        rand).cell i j =
      if 0 ≤ side_length ∧
          (((((i : ℤ) - ((grid_size / 2 : Nat) : ℤ)).natAbs +
                ((j : ℤ) - ((grid_size / 2 : Nat) : ℤ)).natAbs : Nat) : ℚ) ≤
              side_length ∨
            2 * (((((i : ℤ) - ((grid_size / 2 : Nat) : ℤ)).natAbs +
                  ((j : ℤ) - ((grid_size / 2 : Nat) : ℤ)).natAbs : Nat) : ℚ) -
                side_length) ^ 2 ≤ side_length ^ 2) ∧
          ((max (((i : ℤ) - ((grid_size / 2 : Nat) : ℤ)).natAbs)
                (((j : ℤ) - ((grid_size / 2 : Nat) : ℤ)).natAbs) : Nat) : ℚ) ^ 2 ≤
            2 * side_length ^ 2 then Cell.Active
      else Cell.Empty := by
  simp [create_octagonal_array]

/-- C6: for every grid_size ≥ 1 and side_length ≥ 0, the octagonal generator with
randomize=False marks a cell `(i,j)` Active iff both
`|i-center| + |j-center| ≤ side_length*(1 + √2/2)` and
`max(|i-center|, |j-center|) ≤ side_length*√2`, where `center = grid_size // 2`,
and Empty otherwise. -/
theorem c6_octagonal_region (grid_size : Nat) (side_length : ℚ)
    (empty_fraction : ℚ) (passive : Bool) (rand : Nat → Nat → ℚ)
    (hg : 1 ≤ grid_size) (hs : 0 ≤ side_length) :
    (create_octagonal_array grid_size side_length false empty_fraction passive
        rand).rows = grid_size ∧
      (create_octagonal_array grid_size side_length false empty_fraction passive
          rand).cols = grid_size ∧
      ∀ i j, i < grid_size → j < grid_size →
        ((create_octagonal_array grid_size side_length false empty_fraction passive
              rand).cell i j = Cell.Active ↔
          (|(i : ℝ) - ((grid_size / 2 : Nat) : ℝ)| +
              |(j : ℝ) - ((grid_size / 2 : Nat) : ℝ)| ≤
              (side_length : ℝ) * (1 + Real.sqrt 2 / 2) ∧
            max |(i : ℝ) - ((grid_size / 2 : Nat) : ℝ)|
                |(j : ℝ) - ((grid_size / 2 : Nat) : ℝ)| ≤
              (side_length : ℝ) * Real.sqrt 2)) ∧
        ((create_octagonal_array grid_size side_length false empty_fraction passive
              rand).cell i j = Cell.Empty ↔
          ¬(|(i : ℝ) - ((grid_size / 2 : Nat) : ℝ)| +
              |(j : ℝ) - ((grid_size / 2 : Nat) : ℝ)| ≤
              (side_length : ℝ) * (1 + Real.sqrt 2 / 2) ∧
            max |(i : ℝ) - ((grid_size / 2 : Nat) : ℝ)|
                |(j : ℝ) - ((grid_size / 2 : Nat) : ℝ)| ≤
              (side_length : ℝ) * Real.sqrt 2)) := by
  refine ⟨rfl, rfl, ?_⟩
  intro i j hi hj
  have habs : ∀ a c : Nat, ((((a : ℤ) - (c : ℤ)).natAbs : Nat) : ℝ) =
      |(a : ℝ) - (c : ℝ)| := by
    intro a c
    rw [Int.cast_natAbs]
    congr 1
    push_cast
    ring
  have hx := habs i (grid_size / 2)
  have hy := habs j (grid_size / 2)
  have key1 := oct_diamond_cond_iff side_length
    (((i : ℤ) - ((grid_size / 2 : Nat) : ℤ)).natAbs +
      ((j : ℤ) - ((grid_size / 2 : Nat) : ℤ)).natAbs)
  rw [show (((((i : ℤ) - ((grid_size / 2 : Nat) : ℤ)).natAbs +
        ((j : ℤ) - ((grid_size / 2 : Nat) : ℤ)).natAbs : Nat) : ℝ)) =
      |(i : ℝ) - ((grid_size / 2 : Nat) : ℝ)| +
        |(j : ℝ) - ((grid_size / 2 : Nat) : ℝ)| by
      rw [Nat.cast_add, hx, hy]] at key1
  have key2 := oct_square_cond_iff side_length
    (max (((i : ℤ) - ((grid_size / 2 : Nat) : ℤ)).natAbs)
      (((j : ℤ) - ((grid_size / 2 : Nat) : ℤ)).natAbs))
  rw [show (((max (((i : ℤ) - ((grid_size / 2 : Nat) : ℤ)).natAbs)
        (((j : ℤ) - ((grid_size / 2 : Nat) : ℤ)).natAbs) : Nat) : ℝ)) =
      max |(i : ℝ) - ((grid_size / 2 : Nat) : ℝ)|
        |(j : ℝ) - ((grid_size / 2 : Nat) : ℝ)| by
      rw [Nat.cast_max, hx, hy]] at key2
  have hcond : (0 ≤ side_length ∧
      (((((i : ℤ) - ((grid_size / 2 : Nat) : ℤ)).natAbs +
            ((j : ℤ) - ((grid_size / 2 : Nat) : ℤ)).natAbs : Nat) : ℚ) ≤
          side_length ∨
        2 * (((((i : ℤ) - ((grid_size / 2 : Nat) : ℤ)).natAbs +
              ((j : ℤ) - ((grid_size / 2 : Nat) : ℤ)).natAbs : Nat) : ℚ) -
            side_length) ^ 2 ≤ side_length ^ 2) ∧
      ((max (((i : ℤ) - ((grid_size / 2 : Nat) : ℤ)).natAbs)
            (((j : ℤ) - ((grid_size / 2 : Nat) : ℤ)).natAbs) : Nat) : ℚ) ^ 2 ≤
        2 * side_length ^ 2) ↔
      (|(i : ℝ) - ((grid_size / 2 : Nat) : ℝ)| +
          |(j : ℝ) - ((grid_size / 2 : Nat) : ℝ)| ≤
          (side_length : ℝ) * (1 + Real.sqrt 2 / 2) ∧
        max |(i : ℝ) - ((grid_size / 2 : Nat) : ℝ)|
            |(j : ℝ) - ((grid_size / 2 : Nat) : ℝ)| ≤
          (side_length : ℝ) * Real.sqrt 2) := by
    constructor
    · rintro ⟨a, b, c⟩
      exact ⟨key1.mp ⟨a, b⟩, key2.mp ⟨a, c⟩⟩
    · rintro ⟨h1, h2⟩
      obtain ⟨a, b⟩ := key1.mpr h1
      obtain ⟨-, c⟩ := key2.mpr h2
      exact ⟨a, b, c⟩
  constructor
  · rw [octagonal_cell_nonrandom, ite_active_empty_eq_active]
    exact hcond
  · rw [octagonal_cell_nonrandom, ite_active_empty_eq_empty]
    exact not_congr hcond

/-- C6 witness: the hypotheses of `c6_octagonal_region` hold at `grid_size = 3`,
`side_length = 1`. -/
theorem c6_octagonal_region_witness :
    (1 ≤ 3 ∧ (0 : ℚ) ≤ 1) ∧
      ((create_octagonal_array 3 1 false (1 / 10) false (fun _ _ => 0)).rows = 3 ∧
        (create_octagonal_array 3 1 false (1 / 10) false (fun _ _ => 0)).cols = 3 ∧
        ∀ i j, i < 3 → j < 3 →
          ((create_octagonal_array 3 1 false (1 / 10) false (fun _ _ => 0)).cell i j
              = Cell.Active ↔
            (|(i : ℝ) - ((3 / 2 : Nat) : ℝ)| + |(j : ℝ) - ((3 / 2 : Nat) : ℝ)| ≤
                ((1 : ℚ) : ℝ) * (1 + Real.sqrt 2 / 2) ∧
              max |(i : ℝ) - ((3 / 2 : Nat) : ℝ)| |(j : ℝ) - ((3 / 2 : Nat) : ℝ)| ≤
                ((1 : ℚ) : ℝ) * Real.sqrt 2)) ∧
          ((create_octagonal_array 3 1 false (1 / 10) false (fun _ _ => 0)).cell i j
              = Cell.Empty ↔
            ¬(|(i : ℝ) - ((3 / 2 : Nat) : ℝ)| + |(j : ℝ) - ((3 / 2 : Nat) : ℝ)| ≤
                ((1 : ℚ) : ℝ) * (1 + Real.sqrt 2 / 2) ∧
              max |(i : ℝ) - ((3 / 2 : Nat) : ℝ)| |(j : ℝ) - ((3 / 2 : Nat) : ℝ)| ≤
                ((1 : ℚ) : ℝ) * Real.sqrt 2))) :=
  ⟨⟨by norm_num, by norm_num⟩,
    c6_octagonal_region 3 1 (1 / 10) false (fun _ _ => 0) (by norm_num) (by norm_num)⟩

/-! ### The randomized branches of the fixed-count-sampling generators -/

theorem create_rectangular_array_true_eq (rows columns : Nat) (f : ℚ)
    (passive : Bool) (sample : Nat → Nat → List Nat) (hf0 : 0 ≤ f) (hf1 : f ≤ 1) :
    create_rectangular_array rows columns true f passive sample =
      Except.ok
        ((sample (rows * columns) (⌊((rows * columns : Nat) : ℚ) * f⌋).toNat).foldl
          (fun g pos => g.set2 (pos / columns) (pos % columns) (demoteCell passive))
          ⟨rows, columns, fun _ _ => Cell.Active⟩) := by
  have h0 : (0 : ℚ) ≤ ((rows * columns : Nat) : ℚ) * f :=
    mul_nonneg (Nat.cast_nonneg _) hf0
  have hcond : ¬(⌊((rows * columns : Nat) : ℚ) * f⌋ < 0 ∨
      ((rows * columns : Nat) : ℤ) < ⌊((rows * columns : Nat) : ℚ) * f⌋) := by
    push_neg
    exact ⟨floor_mul_nonneg _ f hf0, floor_mul_le _ f hf1⟩
  simp only [create_rectangular_array]
  rw [if_pos trivial, pytrunc_of_nonneg _ h0, if_neg hcond]

theorem create_hexagonal_array_true_eq (radius : Nat) (f : ℚ) (passive : Bool)
    (sample : Nat → Nat → List Nat) (hf0 : 0 ≤ f) (hf1 : f ≤ 1) :
    create_hexagonal_array radius true f passive sample =
      Except.ok
        ((sample (hexPositions radius).length
            (⌊((hexPositions radius).length : ℚ) * f⌋).toNat).foldl
          (fun g idx =>
            g.set2 ((hexPositions radius).getD idx (0, 0)).1
              ((hexPositions radius).getD idx (0, 0)).2 (demoteCell passive))
          ⟨2 * radius + 1, 2 * radius + 1, fun i j =>
            if hexStart radius i ≤ j ∧ j < hexEnd radius i then Cell.Active
            else Cell.Empty⟩) := by
  have h0 : (0 : ℚ) ≤ ((hexPositions radius).length : ℚ) * f :=
    mul_nonneg (Nat.cast_nonneg _) hf0
  have hcond : ¬(⌊((hexPositions radius).length : ℚ) * f⌋ < 0 ∨
      ((hexPositions radius).length : ℤ) <
        ⌊((hexPositions radius).length : ℚ) * f⌋) := by
    push_neg
    exact ⟨floor_mul_nonneg _ f hf0, floor_mul_le _ f hf1⟩
  simp only [create_hexagonal_array]
  rw [if_pos trivial, pytrunc_of_nonneg _ h0, if_neg hcond]

/-- Demoting the cells named by a valid sample of flat positions produces exactly
`sample.length` non-Active cells in the rectangular grid. -/
theorem rect_demoted_count (rows columns : Nat) (passive : Bool) (smp : List Nat)
    (hnd : smp.Nodup) (hbound : ∀ x ∈ smp, x < rows * columns) :
    (smp.foldl
        (fun g pos => g.set2 (pos / columns) (pos % columns) (demoteCell passive))
        (⟨rows, columns, fun _ _ => Cell.Active⟩ : Grid)).countNonActive =
      smp.length := by
  have hcell : ∀ a b,
      (smp.foldl
          (fun g pos => g.set2 (pos / columns) (pos % columns) (demoteCell passive))
          (⟨rows, columns, fun _ _ => Cell.Active⟩ : Grid)).cell a b =
        if ∃ pos ∈ smp, pos / columns = a ∧ pos % columns = b then
          demoteCell passive
        else Cell.Active := by
    intro a b
    rw [rect_foldl_cell]
  rw [Grid.countNonActive]
  simp only [rect_foldl_rows, rect_foldl_cols]
  have hset : ((Finset.range (⟨rows, columns, fun _ _ => Cell.Active⟩ : Grid).rows ×ˢ
      Finset.range (⟨rows, columns, fun _ _ => Cell.Active⟩ : Grid).cols).filter
        (fun p =>
          (smp.foldl
              (fun g pos =>
                g.set2 (pos / columns) (pos % columns) (demoteCell passive))
              (⟨rows, columns, fun _ _ => Cell.Active⟩ : Grid)).cell p.1 p.2 ≠
            Cell.Active)) =
      smp.toFinset.image (fun pos => (pos / columns, pos % columns)) := by
    ext p
    obtain ⟨a, b⟩ := p
    simp only [Finset.mem_filter, Finset.mem_image, Finset.mem_product,
      Finset.mem_range, List.mem_toFinset, ne_eq, hcell]
    constructor
    · rintro ⟨-, hne⟩
      by_cases h : ∃ pos ∈ smp, pos / columns = a ∧ pos % columns = b
      · obtain ⟨pos, hpos, h1, h2⟩ := h
        exact ⟨pos, hpos, Prod.ext h1 h2⟩
      · rw [if_neg h] at hne
        exact absurd rfl hne
    · rintro ⟨pos, hpos, heq⟩
      obtain ⟨h1, h2⟩ := Prod.mk.injEq _ _ _ _ ▸ heq
      subst h1
      subst h2
      have hlt := decode_lt pos rows columns (hbound pos hpos)
      refine ⟨⟨hlt.1, hlt.2⟩, ?_⟩
      rw [if_pos ⟨pos, hpos, rfl, rfl⟩]
      exact demoteCell_ne_active passive
  have hinj : Set.InjOn (fun pos => (pos / columns, pos % columns))
      ↑smp.toFinset := by
    intro p _ q _ h
    simp only [Prod.mk.injEq] at h
    exact decode_inj p q columns h.1 h.2
  rw [hset, Finset.card_image_of_injOn hinj, List.toFinset_card_of_nodup hnd]

/-- Every cell of the demoted rectangular grid is Active or the demotion value. -/
theorem rect_demoted_cases (rows columns : Nat) (passive : Bool) (smp : List Nat)
    (a b : Nat) :
    (smp.foldl
        (fun g pos => g.set2 (pos / columns) (pos % columns) (demoteCell passive))
        (⟨rows, columns, fun _ _ => Cell.Active⟩ : Grid)).cell a b = Cell.Active ∨
      (smp.foldl
          (fun g pos => g.set2 (pos / columns) (pos % columns) (demoteCell passive))
          (⟨rows, columns, fun _ _ => Cell.Active⟩ : Grid)).cell a b =
        demoteCell passive := by
  rw [rect_foldl_cell]
  split
  · exact Or.inr rfl
  · exact Or.inl rfl

/-- Demoting the cells named by a valid sample of indices into `cell_positions`
produces exactly `sample.length` non-Active in-hexagon cells. -/
theorem hex_demoted_count (radius : Nat) (passive : Bool) (smp : List Nat)
    (hnd : smp.Nodup) (hbound : ∀ x ∈ smp, x < (hexPositions radius).length) :
    ((hexPositions radius).filter
        (fun p => decide
          ((smp.foldl
              (fun g idx =>
                g.set2 ((hexPositions radius).getD idx (0, 0)).1
                  ((hexPositions radius).getD idx (0, 0)).2 (demoteCell passive))
              (⟨2 * radius + 1, 2 * radius + 1, fun i j =>
                if hexStart radius i ≤ j ∧ j < hexEnd radius i then Cell.Active
                else Cell.Empty⟩ : Grid)).cell p.1 p.2 ≠ Cell.Active))).length =
      smp.length := by
  have hndp := hexPositions_nodup radius
  have hcell : ∀ a b,
      (smp.foldl
          (fun g idx =>
            g.set2 ((hexPositions radius).getD idx (0, 0)).1
              ((hexPositions radius).getD idx (0, 0)).2 (demoteCell passive))
          (⟨2 * radius + 1, 2 * radius + 1, fun i j =>
            if hexStart radius i ≤ j ∧ j < hexEnd radius i then Cell.Active
            else Cell.Empty⟩ : Grid)).cell a b =
        if ∃ idx ∈ smp, (hexPositions radius).getD idx (0, 0) = (a, b) then
          demoteCell passive
        else
          (⟨2 * radius + 1, 2 * radius + 1, fun i j =>
            if hexStart radius i ≤ j ∧ j < hexEnd radius i then Cell.Active
            else Cell.Empty⟩ : Grid).cell a b := by
    intro a b
    rw [hex_foldl_cell]
  have hfilter_nd : ((hexPositions radius).filter
      (fun p => decide
        ((smp.foldl
            (fun g idx =>
              g.set2 ((hexPositions radius).getD idx (0, 0)).1
                ((hexPositions radius).getD idx (0, 0)).2 (demoteCell passive))
            (⟨2 * radius + 1, 2 * radius + 1, fun i j =>
              if hexStart radius i ≤ j ∧ j < hexEnd radius i then Cell.Active
              else Cell.Empty⟩ : Grid)).cell p.1 p.2 ≠ Cell.Active))).Nodup :=
    hndp.filter _
  rw [← List.toFinset_card_of_nodup hfilter_nd]
  have hset : ((hexPositions radius).filter
      (fun p => decide
        ((smp.foldl
            (fun g idx =>
              g.set2 ((hexPositions radius).getD idx (0, 0)).1
                ((hexPositions radius).getD idx (0, 0)).2 (demoteCell passive))
            (⟨2 * radius + 1, 2 * radius + 1, fun i j =>
              if hexStart radius i ≤ j ∧ j < hexEnd radius i then Cell.Active
              else Cell.Empty⟩ : Grid)).cell p.1 p.2 ≠ Cell.Active))).toFinset =
      smp.toFinset.image (fun idx => (hexPositions radius).getD idx (0, 0)) := by
    ext p
    simp only [List.mem_toFinset, List.mem_filter, Finset.mem_image,
      decide_eq_true_eq]
    constructor
    · rintro ⟨hp, hne⟩
      rw [hcell p.1 p.2] at hne
      by_cases h : ∃ idx ∈ smp, (hexPositions radius).getD idx (0, 0) = (p.1, p.2)
      · obtain ⟨idx, hidx, he⟩ := h
        exact ⟨idx, hidx, by rw [he]⟩
      · rw [if_neg h] at hne
        have hm := (mem_hexPositions radius p).mp hp
        rw [Grid.cell_mk, if_pos ⟨hm.2.1, hm.2.2⟩] at hne
        exact absurd rfl hne
    · rintro ⟨idx, hidx, rfl⟩
      have hlt : idx < (hexPositions radius).length := hbound idx hidx
      have hmem : (hexPositions radius).getD idx (0, 0) ∈ hexPositions radius := by
        rw [getD_of_lt _ _ hlt]
        exact List.getElem_mem _
      refine ⟨hmem, ?_⟩
      rw [hcell, if_pos ⟨idx, hidx, Prod.mk.eta.symm⟩]
      exact demoteCell_ne_active passive
  have hinj : Set.InjOn (fun idx => (hexPositions radius).getD idx (0, 0))
      ↑smp.toFinset := by
    intro a ha b hb h
    have ha' : a < (hexPositions radius).length :=
      hbound a (List.mem_toFinset.mp ha)
    have hb' : b < (hexPositions radius).length :=
      hbound b (List.mem_toFinset.mp hb)
    simp only at h
    rw [getD_of_lt _ _ ha', getD_of_lt _ _ hb'] at h
    exact (hndp.getElem_inj_iff).mp h
  rw [hset, Finset.card_image_of_injOn hinj, List.toFinset_card_of_nodup hnd]

/-- Every in-hexagon cell of the demoted hexagonal grid is Active or the demotion
value. -/
theorem hex_demoted_cases (radius : Nat) (passive : Bool) (smp : List Nat)
    (p : Nat × Nat) (hp : p ∈ hexPositions radius) :
    (smp.foldl
        (fun g idx =>
          g.set2 ((hexPositions radius).getD idx (0, 0)).1
            ((hexPositions radius).getD idx (0, 0)).2 (demoteCell passive))
        (⟨2 * radius + 1, 2 * radius + 1, fun i j =>
          if hexStart radius i ≤ j ∧ j < hexEnd radius i then Cell.Active
          else Cell.Empty⟩ : Grid)).cell p.1 p.2 = Cell.Active ∨
      (smp.foldl
          (fun g idx =>
            g.set2 ((hexPositions radius).getD idx (0, 0)).1
              ((hexPositions radius).getD idx (0, 0)).2 (demoteCell passive))
          (⟨2 * radius + 1, 2 * radius + 1, fun i j =>
            if hexStart radius i ≤ j ∧ j < hexEnd radius i then Cell.Active
            else Cell.Empty⟩ : Grid)).cell p.1 p.2 = demoteCell passive := by
  rw [hex_foldl_cell]
  split
  · exact Or.inr rfl
  · left
    have hm := (mem_hexPositions radius p).mp hp
    rw [Grid.cell_mk, if_pos ⟨hm.2.1, hm.2.2⟩]

/-! ### C3: fixed-count sampling without replacement -/

/-- C3: for the rectangular and hexagonal generators with randomize=True and
`empty_fraction = f ∈ [0,1]`, exactly `floor(N*f)` distinct in-region cells are
demoted to non-Active (Passive if passive else Empty), where N is `rows*columns`
for rectangular and the count of in-hexagon positions for hexagonal; every
remaining in-region cell stays Active. -/
theorem c3_fixed_count_demotion (empty_fraction : ℚ) (hf0 : 0 ≤ empty_fraction)
    (hf1 : empty_fraction ≤ 1) :
    (∀ rows columns passive sample, ValidSampler sample →
      ∃ g, create_rectangular_array rows columns true empty_fraction passive
            sample = Except.ok g ∧
        g.countNonActive =
          (⌊((rows * columns : Nat) : ℚ) * empty_fraction⌋).toNat ∧
        ∀ i j, i < rows → j < columns →
          g.cell i j = Cell.Active ∨ g.cell i j = demoteCell passive) ∧
    (∀ radius passive sample, ValidSampler sample →
      ∃ g, create_hexagonal_array radius true empty_fraction passive sample =
          Except.ok g ∧
        ((hexPositions radius).filter
            (fun p => decide (g.cell p.1 p.2 ≠ Cell.Active))).length =
          (⌊((hexPositions radius).length : ℚ) * empty_fraction⌋).toNat ∧
        ∀ p ∈ hexPositions radius,
          g.cell p.1 p.2 = Cell.Active ∨ g.cell p.1 p.2 = demoteCell passive) := by
  constructor
  · intro rows columns passive sample hs
    obtain ⟨hlen, hnd, hbound⟩ := hs (rows * columns)
      ((⌊((rows * columns : Nat) : ℚ) * empty_fraction⌋).toNat)
      (floor_mul_toNat_le _ _ hf1)
    refine ⟨_,
      create_rectangular_array_true_eq rows columns empty_fraction passive sample
        hf0 hf1, ?_, ?_⟩
    · rw [rect_demoted_count rows columns passive _ hnd hbound, hlen]
    · intro i j _ _
      exact rect_demoted_cases rows columns passive _ i j
  · intro radius passive sample hs
    obtain ⟨hlen, hnd, hbound⟩ := hs (hexPositions radius).length
      ((⌊((hexPositions radius).length : ℚ) * empty_fraction⌋).toNat)
      (floor_mul_toNat_le _ _ hf1)
    refine ⟨_,
      create_hexagonal_array_true_eq radius empty_fraction passive sample hf0 hf1,
      ?_, ?_⟩
    · rw [hex_demoted_count radius passive _ hnd hbound, hlen]
    · intro p hp
      exact hex_demoted_cases radius passive _ p hp

/-- C3 witness: the hypotheses of `c3_fixed_count_demotion` hold at
`empty_fraction = 1/2` with the sampler that returns an initial segment. -/
theorem c3_fixed_count_demotion_witness :
    ((0 : ℚ) ≤ 1 / 2 ∧ (1 / 2 : ℚ) ≤ 1 ∧ ValidSampler fun _ k => List.range k) ∧
      (∃ g, create_rectangular_array 2 3 true (1 / 2) false
            (fun _ k => List.range k) = Except.ok g ∧
        g.countNonActive = (⌊((2 * 3 : Nat) : ℚ) * (1 / 2)⌋).toNat ∧
        ∀ i j, i < 2 → j < 3 →
          g.cell i j = Cell.Active ∨ g.cell i j = demoteCell false) ∧
      (∃ g, create_hexagonal_array 2 true (1 / 2) true (fun _ k => List.range k) =
          Except.ok g ∧
        ((hexPositions 2).filter
            (fun p => decide (g.cell p.1 p.2 ≠ Cell.Active))).length =
          (⌊((hexPositions 2).length : ℚ) * (1 / 2)⌋).toNat ∧
        ∀ p ∈ hexPositions 2,
          g.cell p.1 p.2 = Cell.Active ∨ g.cell p.1 p.2 = demoteCell true) :=
  ⟨⟨by norm_num, by norm_num, validSampler_range⟩,
    (c3_fixed_count_demotion (1 / 2) (by norm_num) (by norm_num)).1 2 3 false
      (fun _ k => List.range k) validSampler_range,
    (c3_fixed_count_demotion (1 / 2) (by norm_num) (by norm_num)).2 2 true
      (fun _ k => List.range k) validSampler_range⟩

/-! ### C8: full demotion with empty_fraction = 1 and passive = True -/

/-- C8: with passive=True, randomize=True and empty_fraction=1.0, every in-region
cell of the rectangular, hexagonal, circular and octagonal generators is demoted
and every demoted cell is Passive — no in-region cell ends up Empty and none stays
Active. -/
theorem c8_full_demotion_passive :
    (∀ rows columns sample, ValidSampler sample →
      ∃ g, create_rectangular_array rows columns true 1 true sample =
          Except.ok g ∧
        ∀ i j, i < rows → j < columns → g.cell i j = Cell.Passive) ∧
    (∀ radius sample, ValidSampler sample →
      ∃ g, create_hexagonal_array radius true 1 true sample = Except.ok g ∧
        ∀ p ∈ hexPositions radius, g.cell p.1 p.2 = Cell.Passive) ∧
    (∀ (grid_size : Nat) (radius : ℚ) (rand : Nat → Nat → ℚ),
      (∀ a b, 0 ≤ rand a b ∧ rand a b < 1) →
      ∀ i j : Nat, i < grid_size → j < grid_size →
        (0 ≤ radius ∧ ((i : ℚ) - ((grid_size / 2 : Nat) : ℚ)) ^ 2 +
            ((j : ℚ) - ((grid_size / 2 : Nat) : ℚ)) ^ 2 ≤ radius ^ 2) →
        (create_circular_array grid_size radius true 1 true rand).cell i j =
          Cell.Passive) ∧
    (∀ (grid_size : Nat) (side_length : ℚ) (rand : Nat → Nat → ℚ),
      (∀ a b, 0 ≤ rand a b ∧ rand a b < 1) →
      ∀ i j : Nat, i < grid_size → j < grid_size →
        (0 ≤ side_length ∧
          (((((i : ℤ) - ((grid_size / 2 : Nat) : ℤ)).natAbs +
                ((j : ℤ) - ((grid_size / 2 : Nat) : ℤ)).natAbs : Nat) : ℚ) ≤
              side_length ∨
            2 * (((((i : ℤ) - ((grid_size / 2 : Nat) : ℤ)).natAbs +
                  ((j : ℤ) - ((grid_size / 2 : Nat) : ℤ)).natAbs : Nat) : ℚ) -
                side_length) ^ 2 ≤ side_length ^ 2) ∧
          ((max (((i : ℤ) - ((grid_size / 2 : Nat) : ℤ)).natAbs)
                (((j : ℤ) - ((grid_size / 2 : Nat) : ℤ)).natAbs) : Nat) : ℚ) ^ 2 ≤
            2 * side_length ^ 2) →
        (create_octagonal_array grid_size side_length true 1 true rand).cell i j =
          Cell.Passive) := by
  refine ⟨?_, ?_, ?_, ?_⟩
  · intro rows columns sample hs
    have heq := create_rectangular_array_true_eq rows columns 1 true sample
      (by norm_num) (by norm_num)
    rw [floor_mul_one_toNat] at heq
    obtain ⟨hlen, hnd, hbound⟩ := hs (rows * columns) (rows * columns) (le_refl _)
    refine ⟨_, heq, ?_⟩
    intro i j hi hj
    have hmem : i * columns + j ∈ sample (rows * columns) (rows * columns) := by
      refine isSample_full _ _ ⟨hlen, hnd, hbound⟩ _ ?_
      calc i * columns + j < i * columns + columns := by omega
        _ = (i + 1) * columns := by ring
        _ ≤ rows * columns := Nat.mul_le_mul_right _ (by omega)
    rw [rect_foldl_cell, if_pos ⟨i * columns + j, hmem,
      (divmod_encode i j columns hj).1, (divmod_encode i j columns hj).2⟩]
    rfl
  · intro radius sample hs
    have heq := create_hexagonal_array_true_eq radius 1 true sample
      (by norm_num) (by norm_num)
    rw [floor_mul_one_toNat] at heq
    obtain ⟨hlen, hnd, hbound⟩ := hs (hexPositions radius).length
      (hexPositions radius).length (le_refl _)
    refine ⟨_, heq, ?_⟩
    intro p hp
    obtain ⟨idx, hlt, rfl⟩ := List.mem_iff_getElem.mp hp
    rw [hex_foldl_cell, if_pos ⟨idx, isSample_full _ _ ⟨hlen, hnd, hbound⟩ idx hlt,
      ((getD_of_lt _ _ hlt).trans Prod.mk.eta.symm)⟩]
    rfl
  · intro grid_size radius rand hrand i j _ _ hregion
    have hcell : (create_circular_array grid_size radius true 1 true rand).cell i j
        = if 0 ≤ radius ∧ ((i : ℚ) - ((grid_size / 2 : Nat) : ℚ)) ^ 2 +
              ((j : ℚ) - ((grid_size / 2 : Nat) : ℚ)) ^ 2 ≤ radius ^ 2 then
            (if true = true ∧ rand i j < 1 then demoteCell true else Cell.Active)
          else Cell.Empty := rfl
    rw [hcell, if_pos hregion, if_pos ⟨rfl, (hrand i j).2⟩]
    rfl
  · intro grid_size side_length rand hrand i j _ _ hregion
    have hcell :
        (create_octagonal_array grid_size side_length true 1 true rand).cell i j =
          if 0 ≤ side_length ∧
              (((((i : ℤ) - ((grid_size / 2 : Nat) : ℤ)).natAbs +
                    ((j : ℤ) - ((grid_size / 2 : Nat) : ℤ)).natAbs : Nat) : ℚ) ≤
                  side_length ∨
                2 * (((((i : ℤ) - ((grid_size / 2 : Nat) : ℤ)).natAbs +
                      ((j : ℤ) - ((grid_size / 2 : Nat) : ℤ)).natAbs : Nat) : ℚ) -
                    side_length) ^ 2 ≤ side_length ^ 2) ∧
              ((max (((i : ℤ) - ((grid_size / 2 : Nat) : ℤ)).natAbs)
                    (((j : ℤ) - ((grid_size / 2 : Nat) : ℤ)).natAbs) : Nat) : ℚ) ^ 2
                ≤ 2 * side_length ^ 2 then
            (if true = true ∧ rand i j < 1 then demoteCell true else Cell.Active)
          else Cell.Empty := rfl
    rw [hcell, if_pos hregion, if_pos ⟨rfl, (hrand i j).2⟩]
    rfl

/-- C8 witness: the hypotheses of `c8_full_demotion_passive` hold for the
initial-segment sampler, the all-zeros per-cell random source, and concrete
in-region cells. -/
theorem c8_full_demotion_passive_witness :
    (ValidSampler (fun _ k => List.range k) ∧
      (∀ a b : Nat, (0 : ℚ) ≤ (fun _ _ => (0 : ℚ)) a b ∧
        (fun _ _ => (0 : ℚ)) a b < 1)) ∧
    (∃ g, create_rectangular_array 2 2 true 1 true (fun _ k => List.range k) =
        Except.ok g ∧
      ∀ i j, i < 2 → j < 2 → g.cell i j = Cell.Passive) ∧
    (∃ g, create_hexagonal_array 1 true 1 true (fun _ k => List.range k) =
        Except.ok g ∧
      ∀ p ∈ hexPositions 1, g.cell p.1 p.2 = Cell.Passive) ∧
    ((1 : Nat) < 3 → (1 : Nat) < 3 →
      (0 ≤ (1 : ℚ) ∧ ((1 : ℚ) - ((3 / 2 : Nat) : ℚ)) ^ 2 +
          ((1 : ℚ) - ((3 / 2 : Nat) : ℚ)) ^ 2 ≤ (1 : ℚ) ^ 2) →
      (create_circular_array 3 1 true 1 true (fun _ _ => 0)).cell 1 1 =
        Cell.Passive) ∧
    ((create_octagonal_array 3 1 true 1 true (fun _ _ => 0)).cell 1 1 =
        Cell.Passive) := by
  have hrand : ∀ a b : Nat, (0 : ℚ) ≤ (fun _ _ => (0 : ℚ)) a b ∧
      (fun _ _ => (0 : ℚ)) a b < 1 := fun a b => ⟨le_refl 0, by norm_num⟩
  refine ⟨⟨validSampler_range, hrand⟩,
    c8_full_demotion_passive.1 2 2 (fun _ k => List.range k) validSampler_range,
    c8_full_demotion_passive.2.1 1 (fun _ k => List.range k) validSampler_range,
    c8_full_demotion_passive.2.2.1 3 1 (fun _ _ => 0) hrand 1 1,
    c8_full_demotion_passive.2.2.2 3 1 (fun _ _ => 0) hrand 1 1 (by norm_num)
      (by norm_num) ?_⟩
  have h0 : (((1 : Nat) : ℤ) - ((3 / 2 : Nat) : ℤ)).natAbs = 0 := by decide
  refine ⟨by norm_num, Or.inl ?_, ?_⟩
  · rw [h0]
    norm_num
  · rw [h0]
    norm_num

/-! ### C9: determinism without randomization -/

/-- C9: with `randomize = False` every generator is a deterministic function of its
parameters and makes no use of the random source: two calls with identical
parameters and any two states of the random source produce identical grids. -/
theorem c9_nonrandomized_deterministic :
    (∀ rows cols f p s₁ s₂,
        create_rectangular_array rows cols false f p s₁ =
          create_rectangular_array rows cols false f p s₂) ∧
      (∀ radius f p s₁ s₂,
        create_hexagonal_array radius false f p s₁ =
          create_hexagonal_array radius false f p s₂) ∧
      (∀ gs r f p rand₁ rand₂,
        create_circular_array gs r false f p rand₁ =
          create_circular_array gs r false f p rand₂) ∧
      (∀ gs s f p rand₁ rand₂,
        create_octagonal_array gs s false f p rand₁ =
          create_octagonal_array gs s false f p rand₂) ∧
      (∀ n r gs f p d₁ d₂,
        create_sunflower_array n r gs false f p d₁ =
          create_sunflower_array n r gs false f p d₂) := by
  refine ⟨fun _ _ _ _ _ _ => rfl, fun _ _ _ _ _ => rfl, ?_, ?_, ?_⟩
  · intro gs r f p rand₁ rand₂
    simp [create_circular_array]
  · intro gs s f p rand₁ rand₂
    simp [create_octagonal_array]
  · intro n r gs f p d₁ d₂
    simp [create_sunflower_array, sunflowerGrid]

end ArrayPilot
